import Mathlib

/-!
Verification of the agent-meter event pipeline and delivery/attestation
subsystem against its specification.

The development shallowly embeds the TypeScript source: pure functions become
Lean functions, the stateful HTTP transport becomes explicit state passing,
machine integers are `Nat` with explicit reductions modulo 2^32, and code that
can throw returns `Except`.  The `node:crypto` primitives used by the source
(`createHash("sha256")`, `createHmac("sha256", key)`, `timingSafeEqual`,
`Buffer.from(s, "hex")`) are embedded as executable Lean functions: a concrete
SHA-256 compression over byte lists, HMAC on top of it, and Node's hex decoder
that stops at the first invalid character.
-/

namespace AgentMeter

/-! ## SHA-256 over byte lists (model of node:crypto sha256) -/

/-- Reduce a natural number to a 32-bit word. -/
def w32 (n : Nat) : Nat := n % 4294967296

/-- A 32-bit right rotation (input assumed to be a 32-bit word). -/
def rotr (n x : Nat) : Nat := w32 ((x >>> n) ||| (x <<< (32 - n)))

/-- SHA-256 choose function. -/
def ch (x y z : Nat) : Nat := (x &&& y) ^^^ ((x ^^^ 4294967295) &&& z)

/-- SHA-256 majority function. -/
def maj (x y z : Nat) : Nat := (x &&& y) ^^^ (x &&& z) ^^^ (y &&& z)

/-- SHA-256 big sigma 0. -/
def bigSigma0 (x : Nat) : Nat := rotr 2 x ^^^ rotr 13 x ^^^ rotr 22 x

/-- SHA-256 big sigma 1. -/
def bigSigma1 (x : Nat) : Nat := rotr 6 x ^^^ rotr 11 x ^^^ rotr 25 x

/-- SHA-256 small sigma 0. -/
def smallSigma0 (x : Nat) : Nat := rotr 7 x ^^^ rotr 18 x ^^^ (x >>> 3)

/-- SHA-256 small sigma 1. -/
def smallSigma1 (x : Nat) : Nat := rotr 17 x ^^^ rotr 19 x ^^^ (x >>> 10)

/-- The 64 SHA-256 round constants (decimal). -/
def sha256K : List Nat :=
  [1116352408, 1899447441, 3049323471, 3921009573,
   961987163, 1508970993, 2453635748, 2870763221,
   3624381080, 310598401, 607225278, 1426881987,
   1925078388, 2162078206, 2614888103, 3248222580,
   3835390401, 4022224774, 264347078, 604807628,
   770255983, 1249150122, 1555081692, 1996064986,
   2554220882, 2821834349, 2952996808, 3210313671,
   3336571891, 3584528711, 113926993, 338241895,
   666307205, 773529912, 1294757372, 1396182291,
   1695183700, 1986661051, 2177026350, 2456956037,
   2730485921, 2820302411, 3259730800, 3345764771,
   3516065817, 3600352804, 4094571909, 275423344,
   430227734, 506948616, 659060556, 883997877,
   958139571, 1322822218, 1537002063, 1747873779,
   1955562222, 2024104815, 2227730452, 2361852424,
   2428436474, 2756734187, 3204031479, 3329325298]

/-- Working state of the SHA-256 compression function. -/
structure Sha256State where
  a : Nat
  b : Nat
  c : Nat
  d : Nat
  e : Nat
  f : Nat
  g : Nat
  h : Nat
deriving DecidableEq

/-- The SHA-256 initial hash value (decimal). -/
def sha256H0 : Sha256State :=
  ⟨1779033703, 3144134277, 1013904242, 2773480762,
   1359893119, 2600822924, 528734635, 1541459225⟩

/-- One SHA-256 round, consuming a round constant paired with a schedule word. -/
def compressStep (st : Sha256State) (kw : Nat × Nat) : Sha256State :=
  let t1 := w32 (st.h + bigSigma1 st.e + ch st.e st.f st.g + kw.1 + kw.2)
  let t2 := w32 (bigSigma0 st.a + maj st.a st.b st.c)
  ⟨w32 (t1 + t2), st.a, st.b, st.c, w32 (st.d + t1), st.e, st.f, st.g⟩

/-- Extend a 16-word block to the 64-word message schedule by `k` extension
steps (`k = 48` in SHA-256). -/
def extendSchedule : Nat → List Nat → List Nat
  | 0, ws => ws
  | k + 1, ws =>
      let n := ws.length
      let wNew := w32 (smallSigma1 (ws.getD (n - 2) 0) + ws.getD (n - 7) 0 +
        smallSigma0 (ws.getD (n - 15) 0) + ws.getD (n - 16) 0)
      extendSchedule k (ws ++ [wNew])

/-- Process one 16-word block, updating the hash state. -/
def compressBlock (st0 : Sha256State) (block : List Nat) : Sha256State :=
  let ws := extendSchedule 48 block
  let st := (sha256K.zip ws).foldl compressStep st0
  ⟨w32 (st0.a + st.a), w32 (st0.b + st.b), w32 (st0.c + st.c), w32 (st0.d + st.d),
   w32 (st0.e + st.e), w32 (st0.f + st.f), w32 (st0.g + st.g), w32 (st0.h + st.h)⟩

/-- The `k` big-endian bytes of a natural number. -/
def bytesBE : Nat → Nat → List Nat
  | 0, _ => []
  | k + 1, n => bytesBE k (n / 256) ++ [n % 256]

/-- SHA-256 padding: append `0x80`, zero bytes, and the 8-byte big-endian bit
length, reaching a multiple of 64 bytes. -/
def padMessage (msg : List Nat) : List Nat :=
  let padZeros := (64 - (msg.length + 9) % 64) % 64
  msg ++ [0x80] ++ List.replicate padZeros 0 ++ bytesBE 8 (8 * msg.length)

/-- Group bytes into 32-bit big-endian words. -/
def bytesToWords : List Nat → List Nat
  | b0 :: b1 :: b2 :: b3 :: rest =>
      (b0 * 16777216 + b1 * 65536 + b2 * 256 + b3) :: bytesToWords rest
  | _ => []

/-- Split a word list into 16-word blocks (structural, so it reduces in the
kernel; the input is always a multiple of 16 words after padding). -/
def chunk16 : List Nat → List (List Nat)
  | w0 :: w1 :: w2 :: w3 :: w4 :: w5 :: w6 :: w7 ::
    w8 :: w9 :: w10 :: w11 :: w12 :: w13 :: w14 :: w15 :: rest =>
      [w0, w1, w2, w3, w4, w5, w6, w7, w8, w9, w10, w11, w12, w13, w14, w15] ::
        chunk16 rest
  | [] => []
  | l => [l]

/-- The four big-endian bytes of a 32-bit word. -/
def wordBytes (w : Nat) : List Nat :=
  [w / 16777216 % 256, w / 65536 % 256, w / 256 % 256, w % 256]

/-- SHA-256 of a byte list, as a 32-entry byte list. -/
def sha256Bytes (msg : List Nat) : List Nat :=
  let st := (chunk16 (bytesToWords (padMessage msg))).foldl compressBlock sha256H0
  wordBytes st.a ++ wordBytes st.b ++ wordBytes st.c ++ wordBytes st.d ++
    wordBytes st.e ++ wordBytes st.f ++ wordBytes st.g ++ wordBytes st.h

/-- HMAC-SHA-256 over byte lists (model of `createHmac("sha256", key)`). -/
def hmacSha256 (key msg : List Nat) : List Nat :=
  let k0 := if 64 < key.length then sha256Bytes key else key
  let kp := k0 ++ List.replicate (64 - k0.length) 0
  let ipad := kp.map (fun b => b ^^^ 0x36)
  let opad := kp.map (fun b => b ^^^ 0x5c)
  sha256Bytes (opad ++ sha256Bytes (ipad ++ msg))

/-! ## Strings, UTF-8 and hex (models of Buffer utf8/hex handling) -/

/-- UTF-8 encoding of one scalar value. -/
def encodeChar (c : Char) : List Nat :=
  let n := c.toNat
  if n < 0x80 then [n]
  else if n < 0x800 then
    [0xC0 ||| (n >>> 6), 0x80 ||| (n &&& 0x3F)]
  else if n < 0x10000 then
    [0xE0 ||| (n >>> 12), 0x80 ||| ((n >>> 6) &&& 0x3F), 0x80 ||| (n &&& 0x3F)]
  else
    [0xF0 ||| (n >>> 18), 0x80 ||| ((n >>> 12) &&& 0x3F),
     0x80 ||| ((n >>> 6) &&& 0x3F), 0x80 ||| (n &&& 0x3F)]

/-- UTF-8 bytes of a string. -/
def utf8Bytes (s : String) : List Nat := s.data.flatMap encodeChar

/-- Lowercase hex digit for a nibble, as produced by `digest("hex")`. -/
def hexDigitChar : Nat → Char
  | 0 => '0' | 1 => '1' | 2 => '2' | 3 => '3' | 4 => '4'
  | 5 => '5' | 6 => '6' | 7 => '7' | 8 => '8' | 9 => '9'
  | 10 => 'a' | 11 => 'b' | 12 => 'c' | 13 => 'd' | 14 => 'e' | 15 => 'f'
  | _ + 16 => '0'

/-- The two lowercase hex characters of one byte. -/
def byteHex (b : Nat) : List Char := [hexDigitChar (b / 16), hexDigitChar (b % 16)]

/-- Lowercase hex string of a byte list, as produced by `digest("hex")`. -/
def hexEncode (bytes : List Nat) : String := ⟨bytes.flatMap byteHex⟩

/-- Value of a hex character, accepting both cases as Node's hex decoder does. -/
def hexVal? (c : Char) : Option Nat :=
  if '0' ≤ c ∧ c ≤ '9' then some (c.toNat - 48)
  else if 'a' ≤ c ∧ c ≤ 'f' then some (c.toNat - 87)
  else if 'A' ≤ c ∧ c ≤ 'F' then some (c.toNat - 55)
  else none

/-- Model of `Buffer.from(s, "hex")`: decode hex pairs left to right, stopping
at the first invalid character (and dropping a trailing odd character). -/
def hexDecode : List Char → List Nat
  | c1 :: c2 :: rest =>
      match hexVal? c1, hexVal? c2 with
      | some hi, some lo => (16 * hi + lo) :: hexDecode rest
      | _, _ => []
  | _ => []

/-! ## Signing primitive (src signing module) -/

/-- HMAC-SHA-256 hex digest of a string payload under a string secret:
`createHmac("sha256", secret).update(payload).digest("hex")`. -/
def hmacHex (secret payload : String) : String :=
  hexEncode (hmacSha256 (utf8Bytes secret) (utf8Bytes payload))

/-- The `signPayload` from the signing module. -/
def signPayload (payload secret : String) : String := hmacHex secret payload

/-- Model of `crypto.timingSafeEqual`: throws when the byte buffers have
different lengths, otherwise compares them. -/
def timingSafeEqual (a b : List Nat) : Except String Bool :=
  if a.length ≠ b.length then
    .error ("Input buffers must have the same byte length")
  else .ok (a == b)

/-- The `verifySignature` from the signing module.  The early length check compares
hex *string* lengths; the buffers handed to `timingSafeEqual` are the hex
*decodings*, so the result is `Except`: `timingSafeEqual` can still throw. -/
def verifySignature (payload signature secret : String) : Except String Bool :=
  let expected := signPayload payload secret
  if expected.length ≠ signature.length then .ok false
  else timingSafeEqual (hexDecode expected.data) (hexDecode signature.data)

/-! ## Data model (src/types.ts) -/

/-- The `AgentIdentity` from types.ts. -/
structure AgentIdentity where
  agentId : String
  name : Option String := none
  shepherdId : Option String := none
  tier : Option String := none
deriving DecidableEq

/-- The closed `PricingModel` enumeration from types.ts. -/
inductive PricingModel where
  | perCall
  | perUnit
  | perMinute
  | tiered
  | custom
deriving DecidableEq

/-- The wire string of a pricing model. -/
def PricingModel.toStr : PricingModel → String
  | .perCall => "per-call"
  | .perUnit => "per-unit"
  | .perMinute => "per-minute"
  | .tiered => "tiered"
  | .custom => "custom"

/-- The `UsageRecord` from types.ts.  Numeric fields are naturals (the spec
constrains them to be ≥ 0); `metadata` values are modelled as strings. -/
structure UsageRecord where
  id : String
  timestamp : String
  serviceId : String
  agent : AgentIdentity
  operation : String
  units : Nat
  unitType : String
  pricingModel : PricingModel
  method : String
  path : String
  statusCode : Nat
  durationMs : Nat
  requestSignature : Option String := none
  metadata : Option (List (String × String)) := none
deriving DecidableEq

/-! ## JSON serialization (model of JSON.stringify on a UsageRecord) -/

/-- JSON string escaping for one character (the common JSON.stringify escapes;
other control characters are modelled as passed through). -/
def escapeChar (c : Char) : List Char :=
  if c = '"' then ['\\', '"']
  else if c = '\\' then ['\\', '\\']
  else if c = '\n' then ['\\', 'n']
  else if c = '\r' then ['\\', 'r']
  else if c = '\t' then ['\\', 't']
  else [c]

/-- A JSON string literal. -/
def jsonStr (s : String) : String := ⟨'"' :: (s.data.flatMap escapeChar ++ ['"'])⟩

/-- One JSON object member. -/
def jsonField (key val : String) : String := jsonStr key ++ ":" ++ val

/-- JSON serialization of an `AgentIdentity`; absent optional fields are
omitted, as JSON.stringify omits `undefined` members. -/
def agentJson (a : AgentIdentity) : String :=
  "\x7b" ++ jsonField "agentId" (jsonStr a.agentId) ++
    (match a.name with | some n => "," ++ jsonField "name" (jsonStr n) | none => "") ++
    (match a.shepherdId with
     | some sh => "," ++ jsonField "shepherdId" (jsonStr sh)
     | none => "") ++
    (match a.tier with | some t => "," ++ jsonField "tier" (jsonStr t) | none => "") ++
  "\x7d"

/-- JSON serialization of the string-valued metadata map. -/
def metadataJson (m : List (String × String)) : String :=
  "\x7b" ++ String.intercalate ","
    (m.map (fun kv => jsonField kv.1 (jsonStr kv.2))) ++ "\x7d"

/-- Model of `JSON.stringify(record)`: members in the field order of the
record, `undefined` (absent) optional members omitted. -/
def recordJson (r : UsageRecord) : String :=
  "\x7b" ++ jsonField "id" (jsonStr r.id) ++
  "," ++ jsonField "timestamp" (jsonStr r.timestamp) ++
  "," ++ jsonField "serviceId" (jsonStr r.serviceId) ++
  "," ++ jsonField "agent" (agentJson r.agent) ++
  "," ++ jsonField "operation" (jsonStr r.operation) ++
  "," ++ jsonField "units" (toString r.units) ++
  "," ++ jsonField "unitType" (jsonStr r.unitType) ++
  "," ++ jsonField "pricingModel" (jsonStr r.pricingModel.toStr) ++
  "," ++ jsonField "method" (jsonStr r.method) ++
  "," ++ jsonField "path" (jsonStr r.path) ++
  "," ++ jsonField "statusCode" (toString r.statusCode) ++
  "," ++ jsonField "durationMs" (toString r.durationMs) ++
  (match r.requestSignature with
   | some s => "," ++ jsonField "requestSignature" (jsonStr s)
   | none => "") ++
  (match r.metadata with
   | some m => "," ++ jsonField "metadata" (metadataJson m)
   | none => "") ++
  "\x7d"

/-! ## Attestation subsystem (src transport/attestation module) -/

/-- The `Attestation` from types.ts. -/
structure Attestation where
  batchId : String
  timestamp : String
  serviceId : String
  recordCount : Nat
  merkleRoot : String
  signature : String
  records : List UsageRecord
deriving DecidableEq

/-- The `hashRecord`: keyed digest of the record's canonical serialized form. -/
def hashRecord (record : UsageRecord) (secret : String) : String :=
  hmacHex secret (recordJson record)

/-- The `hashPair`: unkeyed SHA-256 of the concatenation of two hex nodes. -/
def hashPair (left right : String) : String :=
  hexEncode (sha256Bytes (utf8Bytes (left ++ right)))

/-- One pass of the Merkle level loop: hash adjacent pairs left to right,
duplicating the last node when the level has an odd count
(`level[i + 1] ?? left` in the source). -/
def pairUp : List String → List String
  | [] => []
  | [x] => [hashPair x x]
  | x :: y :: rest => hashPair x y :: pairUp rest

/-- Length of one pairing pass. -/
theorem pairUp_length (l : List String) : (pairUp l).length = (l.length + 1) / 2 := by
  induction l using pairUp.induct with
  | case1 => simp [pairUp]
  | case2 x => simp [pairUp]
  | case3 x y rest ih => simp [pairUp, ih]; omega

/-- The `while (level.length > 1)` loop of `buildMerkleRoot`, returning the
single remaining node (`level[0]`). -/
def merkleLoop (level : List String) : String :=
  if h : 1 < level.length then merkleLoop (pairUp level)
  else level.headD ""
termination_by level.length
decreasing_by
  rw [pairUp_length]
  omega

/-- The `buildMerkleRoot` from the attestation module: an explicit error on zero
leaves, the leaf itself for one leaf, otherwise the pairing loop. -/
def buildMerkleRoot : List String → Except String String
  | [] => .error ("Cannot build Merkle root from empty leaves")
  | [x] => .ok x
  | x :: y :: rest => .ok (merkleLoop (x :: y :: rest))

/-- The `buildAttestation` from the attestation module.  The source draws
`batchId` from `generateId()` and `ts` from `timestamp()`; these external
effects are passed as explicit arguments. -/
def buildAttestation (records : List UsageRecord) (serviceId secret batchId ts :
    String) : Except String Attestation :=
  if records.length = 0 then .error ("Cannot attest empty batch")
  else
    let leaves := records.map (fun r => hashRecord r secret)
    match buildMerkleRoot leaves with
    | .error e => .error e
    | .ok merkleRoot =>
      let sigPayload := batchId ++ ":" ++ ts ++ ":" ++ merkleRoot
      let signature := hmacHex secret sigPayload
      .ok { batchId := batchId, timestamp := ts, serviceId := serviceId,
            recordCount := records.length, merkleRoot := merkleRoot,
            signature := signature, records := records }

/-- The `verifyAttestation` from the attestation module: record count check,
Merkle root recomputation (with the build error caught and turned into
rejection), and signature recomputation over `batchId:timestamp:merkleRoot`. -/
def verifyAttestation (attestation : Attestation) (secret : String) : Bool :=
  if attestation.records.length ≠ attestation.recordCount then false
  else
    let leaves := attestation.records.map (fun r => hashRecord r secret)
    match buildMerkleRoot leaves with
    | .error _ => false
    | .ok computedRoot =>
      if computedRoot ≠ attestation.merkleRoot then false
      else
        let sigPayload := attestation.batchId ++ ":" ++ attestation.timestamp ++
          ":" ++ attestation.merkleRoot
        let expectedSig := hmacHex secret sigPayload
        expectedSig == attestation.signature

/-! ## Reference Merkle definition, written from the specification text -/

/-- Modelled from the spec: one pairing level — "repeatedly pair adjacent
leaves left-to-right at each level, hashing each concatenated pair into a
parent node; if a level has an odd number of nodes, duplicate the last node to
form its pair." -/
def pairUpSpec : List String → List String
  | [] => []
  | [x] => [hashPair x x]
  | x :: y :: rest => hashPair x y :: pairUpSpec rest

/-- The two pairing definitions agree. -/
theorem pairUpSpec_eq_pairUp (l : List String) : pairUpSpec l = pairUp l := by
  induction l using pairUpSpec.induct with
  | case1 => rfl
  | case2 x => rfl
  | case3 x y rest ih => simp [pairUpSpec, pairUp, ih]

/-- Length of one specification pairing pass. -/
theorem pairUpSpec_length (l : List String) :
    (pairUpSpec l).length = (l.length + 1) / 2 := by
  rw [pairUpSpec_eq_pairUp, pairUp_length]

/-- Modelled from the spec: "MerkleRoot([]) fails with an explicit error;
MerkleRoot([x]) == x"; otherwise pair adjacent leaves at each level and
"continue until exactly one node remains — the root." -/
def merkleRootSpec : List String → Except String String
  | [] => .error ("Cannot build Merkle root from empty leaves")
  | [x] => .ok x
  | x :: y :: rest => merkleRootSpec (pairUpSpec (x :: y :: rest))
termination_by l => l.length
decreasing_by
  rw [pairUpSpec_length]
  simp only [List.length_cons]
  omega

/-- Unfolding the Merkle level loop when more than one node remains. -/
theorem merkleLoop_of_lt {level : List String} (h : 1 < level.length) :
    merkleLoop level = merkleLoop (pairUp level) := by
  rw [merkleLoop.eq_def, dif_pos h]

/-- Unfolding the Merkle level loop when at most one node remains. -/
theorem merkleLoop_of_le {level : List String} (h : ¬ 1 < level.length) :
    merkleLoop level = level.headD "" := by
  rw [merkleLoop.eq_def, dif_neg h]

/-- The `buildMerkleRoot` succeeds on every non-empty leaf list. -/
theorem buildMerkleRoot_ok : ∀ leaves : List String, leaves ≠ [] →
    ∃ root, buildMerkleRoot leaves = .ok root
  | [], h => absurd rfl h
  | [x], _ => ⟨x, rfl⟩
  | x :: y :: rest, _ => ⟨merkleLoop (x :: y :: rest), rfl⟩

/-- On non-empty leaf lists, the specification Merkle definition computes the
value of the implementation's level loop. -/
theorem merkleRootSpec_ok : ∀ leaves : List String, leaves ≠ [] →
    merkleRootSpec leaves = .ok (merkleLoop leaves) := by
  intro leaves
  induction leaves using merkleRootSpec.induct with
  | case1 => intro h; exact absurd rfl h
  | case2 x =>
      intro _
      rw [merkleRootSpec, merkleLoop_of_le (by simp)]
      rfl
  | case3 x y rest ih =>
      intro _
      rw [merkleRootSpec]
      have hne : pairUpSpec (x :: y :: rest) ≠ [] := by
        have := pairUpSpec_length (x :: y :: rest)
        intro hempty
        rw [hempty] at this
        simp at this
        omega
      rw [ih hne, pairUpSpec_eq_pairUp,
        ← merkleLoop_of_lt (by simp only [List.length_cons]; omega)]

/-! ## Batching HTTP transport (src transport/http module)

The transport's mutable buffer becomes explicit state, and the network is an
oracle `outcomes : Nat → FetchOutcome` giving the result of the fetch made on
each 0-indexed attempt of a flush.  Observable effects (fetch payloads, sleeps
and error-handler invocations) are collected in a log. -/

/-- The observable result of one `fetch`: either a response with a status, or
a thrown transport-level error. -/
inductive FetchOutcome where
  | resp (status : Nat) (statusText : String)
  | thrown (msg : String)
deriving DecidableEq

/-- The error recorded for a failed attempt: `response.ok` is status 200–299;
a non-ok response yields the `HTTP status: statusText` error and a thrown
error is kept as-is.  `none` means the attempt succeeded. -/
def fetchError : FetchOutcome → Option String
  | .resp status statusText =>
      if 200 ≤ status ∧ status < 300 then none
      else some ("HTTP " ++ toString status ++ ": " ++ statusText)
  | .thrown msg => some msg

/-- Whether a fetch outcome counts as a successful delivery. -/
def FetchOutcome.isOk (o : FetchOutcome) : Bool := (fetchError o).isNone

/-- The backoff delay slept after failed 0-indexed attempt `k`:
`100 * (k + 1) ^ 2` milliseconds. -/
def backoff (attempt : Nat) : Nat := 100 * (attempt + 1) ^ 2

/-- The `HttpTransportOptions` (the delivery-tuning subset the claims exercise);
`onErrorPresent` records whether an `onError` handler was supplied. -/
structure HttpTransportOptions where
  batchSize : Option Nat := none
  maxRetries : Option Nat := none
  onErrorPresent : Bool := false
deriving DecidableEq

/-- Resolved transport configuration after constructor defaults
(`batchSize ?? 10`, `maxRetries ?? 3`). -/
structure HttpCfg where
  batchSize : Nat
  maxRetries : Nat
  onErrorPresent : Bool
deriving DecidableEq

/-- The `HttpTransport` constructor's defaulting of its options. -/
def mkHttpCfg (o : HttpTransportOptions) : HttpCfg :=
  { batchSize := o.batchSize.getD 10,
    maxRetries := o.maxRetries.getD 3,
    onErrorPresent := o.onErrorPresent }

/-- Trace of the retry loop of one flush: total fetch attempts made, backoff
delays slept in order, and the value of `lastError` when the loop ends
(`none` when the loop returned early on success or never ran). -/
structure AttemptTrace where
  attempts : Nat
  sleeps : List Nat
  lastError : Option String
deriving DecidableEq

/-- The `for (let attempt = 0; attempt < maxRetries; attempt++)` retry loop.
`remaining` is `maxRetries - attempt`, making the recursion structural; a
successful attempt returns immediately, a failed attempt records its error and
sleeps `backoff attempt` unless it was the final attempt. -/
def attemptLoop (outcomes : Nat → FetchOutcome) (maxRetries : Nat) :
    Nat → Nat → Option String → AttemptTrace
  | 0, attempt, lastError => ⟨attempt, [], lastError⟩
  | remaining + 1, attempt, _ =>
      match fetchError (outcomes attempt) with
      | none => ⟨attempt + 1, [], none⟩
      | some e =>
          let tr := attemptLoop outcomes maxRetries remaining (attempt + 1) (some e)
          if attempt < maxRetries - 1 then
            { tr with sleeps := backoff attempt :: tr.sleeps }
          else tr

/-- The log of observable effects of transport operations. -/
structure FlushLog where
  fetchPayloads : List (List UsageRecord)
  sleeps : List Nat
  errorCalls : List (String × List UsageRecord)
deriving DecidableEq

/-- The empty log. -/
def FlushLog.empty : FlushLog := ⟨[], [], []⟩

/-- Concatenation of two logs. -/
def FlushLog.append (l1 l2 : FlushLog) : FlushLog :=
  ⟨l1.fetchPayloads ++ l2.fetchPayloads, l1.sleeps ++ l2.sleeps,
   l1.errorCalls ++ l2.errorCalls⟩

/-- The `HttpTransport.flush`: a no-op on an empty buffer; otherwise the whole
buffer is detached as one batch (`splice(0)`), delivery is attempted by the
retry loop (each attempt posts the same batch), and if the loop ends with a
recorded `lastError` and a handler is configured, the handler is invoked once
with that error and the batch. -/
def flushT (cfg : HttpCfg) (outcomes : Nat → FetchOutcome)
    (buffer : List UsageRecord) : List UsageRecord × FlushLog :=
  if buffer.isEmpty then (buffer, .empty)
  else
    let batch := buffer
    let tr := attemptLoop outcomes cfg.maxRetries cfg.maxRetries 0 none
    let errorCalls := match tr.lastError with
      | some e => if cfg.onErrorPresent then [(e, batch)] else []
      | none => []
    ([], { fetchPayloads := List.replicate tr.attempts batch,
           sleeps := tr.sleeps, errorCalls := errorCalls })

/-- The `HttpTransport.send`: append to the buffer and flush once the buffer has
reached `batchSize`. -/
def sendT (cfg : HttpCfg) (outcomes : Nat → FetchOutcome)
    (buffer : List UsageRecord) (record : UsageRecord) :
    List UsageRecord × FlushLog :=
  let buf := buffer ++ [record]
  if cfg.batchSize ≤ buf.length then flushT cfg outcomes buf
  else (buf, .empty)

/-- Sequential `send` calls, threading the buffer and concatenating logs. -/
def sendManyT (cfg : HttpCfg) (outcomes : Nat → FetchOutcome) :
    List UsageRecord → List UsageRecord → List UsageRecord × FlushLog
  | buffer, [] => (buffer, .empty)
  | buffer, r :: rs =>
      let step := sendT cfg outcomes buffer r
      let rest := sendManyT cfg outcomes step.1 rs
      (rest.1, step.2.append rest.2)

/-! ## Event pipeline (src/meter.ts)

The `finish` closure of `AgentMeter.record` becomes a pure function from the
request, response, options and configuration (plus the externally generated
fresh id, timestamp and measured duration) to the record handed to the
transport: `some record` is exactly one `send` call, `none` is no call.  The
signature-check branch calls `verifySignature`, which can throw, so the result
is wrapped in `Except`. -/

/-- A header value: `string | string[]` (an absent key is an absent list
entry). -/
inductive HeaderValue where
  | str (s : String)
  | arr (l : List String)
deriving DecidableEq

/-- The header map of a request. -/
abbrev Headers := List (String × HeaderValue)

/-- The `req.headers?.[key]`. -/
def lookupHeader (headers : Option Headers) (key : String) : Option HeaderValue :=
  headers.bind (fun hs => hs.lookup key)

/-- The `Array.isArray(v) ? v[0] : v` — a string is kept, an array yields its
first element (or `undefined` when empty). -/
def headerFirst : Option HeaderValue → Option String
  | some (.str s) => some s
  | some (.arr l) => l.head?
  | none => none

/-- JavaScript truthiness of a possibly-absent string: absent and `""` are
falsy. -/
def jsTruthy : Option String → Bool
  | none => false
  | some s => !s.isEmpty

/-- The `IncomingRequest` from meter.ts; `body` is modelled as an optional string
body. -/
structure IncomingRequest where
  method : Option String := none
  path : Option String := none
  url : Option String := none
  headers : Option Headers := none
  body : Option String := none
deriving DecidableEq

/-- The `OutgoingResponse` from meter.ts (the `finish` event registration is the
invocation of the embedded function itself). -/
structure OutgoingResponse where
  statusCode : Option Nat := none
deriving DecidableEq

/-- The `skip` route option: `boolean | ((req) => boolean)`. -/
inductive SkipSpec where
  | flag (b : Bool)
  | pred (f : IncomingRequest → Bool)

/-- The `units` route option: `number | ((req) => number)`. -/
inductive UnitsSpec where
  | lit (n : Nat)
  | fn (f : IncomingRequest → Nat)

/-- The `RouteOptions` from types.ts. -/
structure RouteOptions where
  operation : Option String := none
  units : Option UnitsSpec := none
  unitType : Option String := none
  pricing : Option PricingModel := none
  metadata : Option (List (String × String)) := none
  skip : Option SkipSpec := none

/-- The `MeterConfig` from types.ts (the transport is handled outside this
function; the emitted record is the function's result). -/
structure MeterConfig where
  serviceId : String
  defaultPricing : Option PricingModel := none
  identifyAgent : Option (IncomingRequest → Option AgentIdentity) := none
  signingSecret : Option String := none
  beforeEmit : Option (UsageRecord → Option UsageRecord) := none
  meterErrors : Option Bool := none

/-- The `defaultIdentifyAgent` from meter.ts: read the `x-agent-id` header (first
element when it is an array); a falsy value means no identity; the optional
`x-agent-name` header fills the name. -/
def defaultIdentifyAgent (req : IncomingRequest) : Option AgentIdentity :=
  let agentId := headerFirst (lookupHeader req.headers ("x-agent-id"))
  if jsTruthy agentId then
    let name := lookupHeader req.headers ("x-agent-name")
    some { agentId := agentId.getD "", name := headerFirst name }
  else none

/-- The body string hashed by the signature check:
`typeof req.body === "string" ? req.body : JSON.stringify(req.body ?? "")`
(an absent body serializes to the JSON string `""`). -/
def requestBodyString (req : IncomingRequest) : String :=
  match req.body with
  | some s => s
  | none => "\"\""

/-- The `finish` closure of `AgentMeter.record`: the eligibility decision
sequence, record construction and the `beforeEmit` hook.  Returns the record
passed to `transport.send`, or `none` when no record is emitted. -/
def recordFinish (config : MeterConfig) (req : IncomingRequest)
    (res : OutgoingResponse) (options : Option RouteOptions)
    (freshId ts : String) (durationMs : Nat) :
    Except String (Option UsageRecord) :=
  let skipTriggered :=
    match options.bind (fun o => o.skip) with
    | some (.flag b) => b
    | some (.pred f) => f req
    | none => false
  if skipTriggered then .ok none
  else
    let statusCode := res.statusCode.getD 0
    if ¬ (config.meterErrors.getD false) ∧ 400 ≤ statusCode then .ok none
    else
      match (config.identifyAgent.getD defaultIdentifyAgent) req with
      | none => .ok none
      | some agent =>
        let requestSignature :=
          headerFirst (lookupHeader req.headers ("x-agent-signature"))
        let checkOutcome :=
          if jsTruthy config.signingSecret ∧ jsTruthy requestSignature then
            verifySignature (requestBodyString req) (requestSignature.getD "")
              (config.signingSecret.getD "")
          else .ok true
        match checkOutcome with
        | .error e => .error e
        | .ok false => .ok none
        | .ok true =>
          let units :=
            match options.bind (fun o => o.units) with
            | some (.fn f) => f req
            | some (.lit n) => n
            | none => 1
          let usageRecord : UsageRecord :=
            { id := freshId,
              timestamp := ts,
              serviceId := config.serviceId,
              agent := agent,
              operation := (options.bind (fun o => o.operation)).getD
                ((req.method.getD "undefined") ++ " " ++
                  ((req.path.orElse (fun _ => req.url)).getD "undefined")),
              units := units,
              unitType := (options.bind (fun o => o.unitType)).getD "request",
              pricingModel := (options.bind (fun o => o.pricing)).getD
                (config.defaultPricing.getD .perCall),
              method := req.method.getD "UNKNOWN",
              path := (req.path.orElse (fun _ => req.url)).getD "/",
              statusCode := statusCode,
              durationMs := durationMs,
              requestSignature := requestSignature,
              metadata := options.bind (fun o => o.metadata) }
          match config.beforeEmit with
          | none => .ok (some usageRecord)
          | some hook =>
            match hook usageRecord with
            | none => .ok none
            | some transformed => .ok (some transformed)

/-! ## Properties of the signing primitive -/

/-- The raw digest bytes behind `signPayload`. -/
def signBytes (payload secret : String) : List Nat :=
  hmacSha256 (utf8Bytes secret) (utf8Bytes payload)

/-- A SHA-256 digest has 32 bytes. -/
theorem sha256Bytes_length (msg : List Nat) : (sha256Bytes msg).length = 32 := by
  simp [sha256Bytes, wordBytes]

/-- Every SHA-256 digest entry is a byte. -/
theorem sha256Bytes_lt (msg : List Nat) : ∀ b ∈ sha256Bytes msg, b < 256 := by
  intro b hb
  simp only [sha256Bytes, wordBytes, List.mem_append, List.mem_cons,
    List.not_mem_nil, or_false] at hb
  omega

/-- An HMAC digest has 32 bytes. -/
theorem signBytes_length (payload secret : String) :
    (signBytes payload secret).length = 32 := by
  simp [signBytes, hmacSha256, sha256Bytes_length]

/-- Every HMAC digest entry is a byte. -/
theorem signBytes_lt (payload secret : String) :
    ∀ b ∈ signBytes payload secret, b < 256 := by
  intro b hb
  simp only [signBytes, hmacSha256] at hb
  exact sha256Bytes_lt _ b hb

/-- The `signPayload` is the hex encoding of the digest bytes. -/
theorem signPayload_eq (payload secret : String) :
    signPayload payload secret = hexEncode (signBytes payload secret) := rfl

/-- Hex-encoding doubles the length. -/
theorem flatMap_byteHex_length (bytes : List Nat) :
    (bytes.flatMap byteHex).length = 2 * bytes.length := by
  induction bytes with
  | nil => rfl
  | cons b t ih => simp [byteHex, ih]; omega

/-- A signature produced by `signPayload` is 64 characters long. -/
theorem signPayload_length (payload secret : String) :
    (signPayload payload secret).length = 64 := by
  show (hexEncode (signBytes payload secret)).length = 64
  show ((signBytes payload secret).flatMap byteHex).length = 64
  rw [flatMap_byteHex_length, signBytes_length]

/-- The hex decoder inverts the hex digit of a nibble. -/
theorem hexVal_hexDigitChar {n : Nat} (h : n < 16) :
    hexVal? (hexDigitChar n) = some n := by
  interval_cases n <;> decide

/-- The hex decoder inverts the hex encoding of a byte list. -/
theorem hexDecode_encode (bytes : List Nat) (h : ∀ b ∈ bytes, b < 256) :
    hexDecode (bytes.flatMap byteHex) = bytes := by
  induction bytes with
  | nil => rfl
  | cons b t ih =>
    have hb : b < 256 := h b (List.mem_cons_self ..)
    have ht := ih (fun x hx => h x (List.mem_cons_of_mem _ hx))
    have h1 : b / 16 < 16 := by omega
    have h2 : b % 16 < 16 := by omega
    simp only [List.flatMap_cons, byteHex, List.cons_append, List.nil_append]
    rw [hexDecode, hexVal_hexDigitChar h1, hexVal_hexDigitChar h2]
    simp only [ht]
    congr 1
    omega

/-- Hex-decoding a produced signature recovers the digest bytes. -/
theorem hexDecode_signPayload (payload secret : String) :
    hexDecode (signPayload payload secret).data = signBytes payload secret :=
  hexDecode_encode _ (signBytes_lt payload secret)

/-- Round trip: verifying a signature produced over the same payload and
secret succeeds (and does not throw). -/
theorem verifySignature_roundtrip (payload secret : String) :
    verifySignature payload (signPayload payload secret) secret = .ok true := by
  unfold verifySignature timingSafeEqual
  rw [if_neg (by simp), if_neg (by simp)]
  simp

/-- A signature whose length differs from the expected signature's length is
rejected before the buffers are compared. -/
theorem verifySignature_length_mismatch (payload signature secret : String)
    (h : (signPayload payload secret).length ≠ signature.length) :
    verifySignature payload signature secret = .ok false := by
  unfold verifySignature
  rw [if_pos h]

/-- A supplied signature produced over a different payload or secret is
rejected whenever the two HMAC digests differ (no collision). -/
theorem verifySignature_different (p p' s s' : String)
    (h : signPayload p' s' ≠ signPayload p s) :
    verifySignature p' (signPayload p s) s' = .ok false := by
  unfold verifySignature timingSafeEqual
  rw [if_neg (by rw [signPayload_length, signPayload_length]; omega)]
  rw [hexDecode_signPayload, hexDecode_signPayload,
    if_neg (by rw [signBytes_length, signBytes_length]; omega)]
  have hne : signBytes p' s' ≠ signBytes p s := fun heq => h (by
    rw [signPayload_eq, signPayload_eq, heq])
  simp [hne]

/-! ## HMAC collisions exist (pigeonhole over the 256-bit digest space) -/

/-- Base-256 value of a byte list (little-endian), used to pack a digest into
a finite type. -/
def foldBytes : List Nat → Nat
  | [] => 0
  | b :: t => b + 256 * foldBytes t

/-- The packed value of a byte list is bounded. -/
theorem foldBytes_lt : ∀ L : List Nat, (∀ b ∈ L, b < 256) →
    foldBytes L < 256 ^ L.length := by
  intro L
  induction L with
  | nil => intro _; simp [foldBytes]
  | cons b t ih =>
    intro h
    have hb : b < 256 := h b (List.mem_cons_self ..)
    have ht := ih (fun x hx => h x (List.mem_cons_of_mem _ hx))
    simp only [foldBytes, List.length_cons, pow_succ]
    calc b + 256 * foldBytes t < 256 + 256 * foldBytes t := by omega
    _ ≤ 256 * (foldBytes t + 1) := by ring_nf; omega
    _ ≤ 256 * 256 ^ t.length := by
        have : foldBytes t + 1 ≤ 256 ^ t.length := ht
        exact Nat.mul_le_mul_left _ this
    _ = 256 ^ t.length * 256 := by ring

/-- Packing is injective on byte lists of equal length. -/
theorem foldBytes_inj : ∀ L1 L2 : List Nat, L1.length = L2.length →
    (∀ b ∈ L1, b < 256) → (∀ b ∈ L2, b < 256) →
    foldBytes L1 = foldBytes L2 → L1 = L2 := by
  intro L1
  induction L1 with
  | nil =>
    intro L2 hlen _ _ _
    exact (List.length_eq_zero.mp hlen.symm).symm ▸ rfl
  | cons b t ih =>
    intro L2 hlen h1 h2 heq
    match L2 with
    | [] => simp at hlen
    | b2 :: t2 =>
      have hb : b < 256 := h1 b (List.mem_cons_self ..)
      have hb2 : b2 < 256 := h2 b2 (List.mem_cons_self ..)
      simp only [foldBytes] at heq
      have hhead : b = b2 := by omega
      have htail : foldBytes t = foldBytes t2 := by omega
      have := ih t2 (by simpa using hlen)
        (fun x hx => h1 x (List.mem_cons_of_mem _ hx))
        (fun x hx => h2 x (List.mem_cons_of_mem _ hx)) htail
      rw [hhead, this]

/-- Pigeonhole: for any fixed secret, `signPayload` maps the infinitely many
payload strings into the finite 256-bit digest space, so two distinct payloads
share a signature. -/
theorem signPayload_collision (s : String) :
    ∃ p p' : String, p ≠ p' ∧ signPayload p s = signPayload p' s := by
  have hbound : ∀ p : String, foldBytes (signBytes p s) < 256 ^ 32 := by
    intro p
    have := foldBytes_lt (signBytes p s) (signBytes_lt p s)
    rwa [signBytes_length] at this
  obtain ⟨p, p', hne, heq⟩ := Finite.exists_ne_map_eq_of_infinite
    (fun p : String => (⟨foldBytes (signBytes p s), hbound p⟩ : Fin (256 ^ 32)))
  refine ⟨p, p', hne, ?_⟩
  simp only [Fin.mk.injEq] at heq
  have hbytes : signBytes p s = signBytes p' s :=
    foldBytes_inj _ _ (by rw [signBytes_length, signBytes_length])
      (signBytes_lt p s) (signBytes_lt p' s) heq
  rw [signPayload_eq, signPayload_eq, hbytes]

/-! ## Properties of the retry loop -/

/-- The attempt counter never decreases. -/
theorem attemptLoop_attempts_ge (o : Nat → FetchOutcome) (m : Nat) :
    ∀ remaining attempt le,
      attempt ≤ (attemptLoop o m remaining attempt le).attempts := by
  intro remaining
  induction remaining with
  | zero => intro attempt le; simp [attemptLoop]
  | succ rem ih =>
    intro attempt le
    simp only [attemptLoop]
    cases hfe : fetchError (o attempt) with
    | none => simp
    | some e =>
      have := ih (attempt + 1) (some e)
      simp only []
      by_cases hlt : attempt < m - 1
      · rw [if_pos hlt]; simp only []; omega
      · rw [if_neg hlt]; omega

/-- With at least one attempt remaining, at least one attempt is made. -/
theorem attemptLoop_attempts_ge_succ (o : Nat → FetchOutcome) (m : Nat) :
    ∀ remaining attempt le, 0 < remaining →
      attempt + 1 ≤ (attemptLoop o m remaining attempt le).attempts := by
  intro remaining
  cases remaining with
  | zero => intro _ _ h; omega
  | succ rem =>
    intro attempt le _
    simp only [attemptLoop]
    cases hfe : fetchError (o attempt) with
    | none => simp
    | some e =>
      have := attemptLoop_attempts_ge o m rem (attempt + 1) (some e)
      simp only []
      by_cases hlt : attempt < m - 1
      · rw [if_pos hlt]; simp only []; omega
      · rw [if_neg hlt]; omega

/-- The loop makes at most `maxRetries` attempts. -/
theorem attemptLoop_attempts_le (o : Nat → FetchOutcome) (m : Nat) :
    ∀ remaining attempt le, attempt + remaining = m →
      (attemptLoop o m remaining attempt le).attempts ≤ m := by
  intro remaining
  induction remaining with
  | zero => intro attempt le hinv; simp [attemptLoop]; omega
  | succ rem ih =>
    intro attempt le hinv
    simp only [attemptLoop]
    cases hfe : fetchError (o attempt) with
    | none => simp only []; omega
    | some e =>
      have := ih (attempt + 1) (some e) (by omega)
      simp only []
      by_cases hlt : attempt < m - 1
      · rw [if_pos hlt]; simp only []; omega
      · rw [if_neg hlt]; omega

/-- The sleeps of the loop are exactly the backoff delays of the non-final
attempts made: one delay per attempt before the last attempt made, none after
the last. -/
theorem attemptLoop_sleeps (o : Nat → FetchOutcome) (m : Nat) :
    ∀ remaining attempt le, attempt + remaining = m →
      (attemptLoop o m remaining attempt le).sleeps =
        (List.range ((attemptLoop o m remaining attempt le).attempts - 1 -
          attempt)).map (fun i => backoff (attempt + i)) := by
  intro remaining
  induction remaining with
  | zero => intro attempt le hinv; simp [attemptLoop]
  | succ rem ih =>
    intro attempt le hinv
    simp only [attemptLoop]
    cases hfe : fetchError (o attempt) with
    | none => simp
    | some e =>
      simp only []
      by_cases hlt : attempt < m - 1
      · rw [if_pos hlt]
        have hrem : 0 < rem := by omega
        have hge := attemptLoop_attempts_ge_succ o m rem (attempt + 1) (some e) hrem
        have hih := ih (attempt + 1) (some e) (by omega)
        simp only []
        rw [hih]
        have hk : (attemptLoop o m rem (attempt + 1) (some e)).attempts - 1 - attempt =
            ((attemptLoop o m rem (attempt + 1) (some e)).attempts - 1 -
              (attempt + 1)) + 1 := by omega
        rw [hk, List.range_succ_eq_map, List.map_cons, List.map_map]
        congr 1
        apply List.map_congr_left
        intro i _
        simp only [Function.comp_apply]
        congr 1
        omega
      · rw [if_neg hlt]
        have hrem : rem = 0 := by omega
        subst hrem
        simp [attemptLoop]

/-- When every attempt fails, the loop makes all `maxRetries` attempts and
ends with a recorded error. -/
theorem attemptLoop_allFail (o : Nat → FetchOutcome) (m : Nat)
    (hf : ∀ k, k < m → (o k).isOk = false) :
    ∀ remaining attempt le, 0 < remaining → attempt + remaining = m →
      (attemptLoop o m remaining attempt le).attempts = m ∧
      ∃ e, (attemptLoop o m remaining attempt le).lastError = some e := by
  intro remaining
  induction remaining with
  | zero => intro _ _ h; omega
  | succ rem ih =>
    intro attempt le _ hinv
    have hk : attempt < m := by omega
    have hfail := hf attempt hk
    obtain ⟨e, hfe⟩ : ∃ e, fetchError (o attempt) = some e := by
      cases hfe : fetchError (o attempt) with
      | none => rw [FetchOutcome.isOk, hfe] at hfail; simp at hfail
      | some e => exact ⟨e, rfl⟩
    simp only [attemptLoop, hfe]
    cases Nat.eq_zero_or_pos rem with
    | inl hz =>
      subst hz
      have hnlt : ¬ attempt < m - 1 := by omega
      rw [if_neg hnlt]
      exact ⟨by simp [attemptLoop]; omega, e, by simp [attemptLoop]⟩
    | inr hpos =>
      have := ih (attempt + 1) (some e) hpos (by omega)
      by_cases hlt : attempt < m - 1
      · rw [if_pos hlt]; simpa using this
      · rw [if_neg hlt]; exact this

/-- When some attempt in range succeeds, the loop ends with no recorded
error (it returns early at the first success). -/
theorem attemptLoop_success (o : Nat → FetchOutcome) (m : Nat) :
    ∀ remaining attempt le,
      (∃ j, attempt ≤ j ∧ j < m ∧ (o j).isOk = true) → attempt + remaining = m →
      (attemptLoop o m remaining attempt le).lastError = none := by
  intro remaining
  induction remaining with
  | zero =>
    intro attempt le hex hinv
    obtain ⟨j, h1, h2, _⟩ := hex
    omega
  | succ rem ih =>
    intro attempt le hex hinv
    simp only [attemptLoop]
    cases hfe : fetchError (o attempt) with
    | none => simp
    | some e =>
      have hnot : (o attempt).isOk = false := by
        rw [FetchOutcome.isOk, hfe]; rfl
      obtain ⟨j, h1, h2, h3⟩ := hex
      have hj : attempt + 1 ≤ j := by
        rcases Nat.eq_or_lt_of_le h1 with heq | hlt
        · rw [← heq] at h3; rw [h3] at hnot; simp at hnot
        · omega
      have := ih (attempt + 1) (some e) ⟨j, hj, h2, h3⟩ (by omega)
      simp only []
      by_cases hlt : attempt < m - 1
      · rw [if_pos hlt]; simpa using this
      · rw [if_neg hlt]; exact this

/-- Appending to the empty log. -/
theorem FlushLog.empty_append (l : FlushLog) : FlushLog.empty.append l = l := by
  simp [FlushLog.append, FlushLog.empty]

/-- Appending the empty log. -/
theorem FlushLog.append_empty (l : FlushLog) : l.append FlushLog.empty = l := by
  simp [FlushLog.append, FlushLog.empty]

/-- A flush whose first delivery attempt succeeds makes exactly one fetch
call posting the whole batch, sleeps no delay, invokes no error handler, and
leaves the buffer empty. -/
theorem flushT_first_success (cfg : HttpCfg) (o : Nat → FetchOutcome)
    (buffer : List UsageRecord) (hne : buffer ≠ [])
    (hok : (o 0).isOk = true) (hm : 0 < cfg.maxRetries) :
    flushT cfg o buffer = ([], ⟨[buffer], [], []⟩) := by
  have hfe : fetchError (o 0) = none := by
    rw [FetchOutcome.isOk] at hok
    exact Option.isNone_iff_eq_none.mp hok
  obtain ⟨r, hr⟩ : ∃ r, cfg.maxRetries = r + 1 := ⟨cfg.maxRetries - 1, by omega⟩
  unfold flushT
  rw [if_neg (by simp [hne])]
  rw [hr]
  simp only [attemptLoop, hfe]
  rfl

/-- Sends that never fill the buffer to `batchSize` trigger no flush. -/
theorem sendManyT_no_flush (cfg : HttpCfg) (o : Nat → FetchOutcome) :
    ∀ (rs buffer : List UsageRecord),
      buffer.length + rs.length < cfg.batchSize →
      sendManyT cfg o buffer rs = (buffer ++ rs, FlushLog.empty) := by
  intro rs
  induction rs with
  | nil => intro buffer _; simp [sendManyT]
  | cons r rs ih =>
    intro buffer h
    simp only [sendManyT, sendT]
    rw [if_neg (by simp only [List.length_append, List.length_cons,
      List.length_nil]; simp at h ⊢; omega)]
    simp only []
    rw [ih (buffer ++ [r]) (by simp at h ⊢; omega)]
    simp [FlushLog.empty_append]

/-- Sends that fill the buffer to exactly `batchSize` trigger exactly one
delivery of the whole buffer contents in order (when delivery succeeds on the
first attempt), leaving the buffer empty. -/
theorem sendManyT_exact (cfg : HttpCfg) (o : Nat → FetchOutcome)
    (hok : (o 0).isOk = true) (hm : 0 < cfg.maxRetries) :
    ∀ (rs buffer : List UsageRecord), rs ≠ [] →
      buffer.length + rs.length = cfg.batchSize →
      sendManyT cfg o buffer rs = ([], ⟨[buffer ++ rs], [], []⟩) := by
  intro rs
  induction rs with
  | nil => intro buffer h; exact absurd rfl h
  | cons r rs ih =>
    intro buffer _ hlen
    simp only [sendManyT, sendT]
    by_cases hrs : rs = []
    · subst hrs
      rw [if_pos (by simp at hlen ⊢; omega)]
      rw [flushT_first_success cfg o (buffer ++ [r]) (by simp) hok hm]
      simp [sendManyT, FlushLog.append_empty]
    · rw [if_neg (by simp at hlen ⊢; have : 0 < rs.length := List.length_pos.mpr hrs; omega)]
      simp only []
      rw [ih (buffer ++ [r]) hrs (by simp at hlen ⊢; omega)]
      simp [FlushLog.empty_append]

/-! ## Sample data for concrete instantiations -/

/-- A sample agent identity. -/
def sampleAgent : AgentIdentity := { agentId := "agent-1" }

/-- A sample usage record. -/
def sampleRecord : UsageRecord :=
  { id := "rec-1", timestamp := "2026-02-15T00:00:00.000Z", serviceId := "svc",
    agent := sampleAgent, operation := "GET /test", units := 1,
    unitType := "request", pricingModel := .perCall, method := "GET",
    path := "/test", statusCode := 200, durationMs := 42 }

/-! ## Claims -/

/-- C1: for every non-empty list of usage records, every serviceId and every
secret (and any generated batch id and timestamp), verifying the attestation
built from them with the same secret succeeds. -/
theorem C1_attest_verify_roundtrip (records : List UsageRecord)
    (serviceId secret batchId ts : String) (hne : records ≠ []) :
    ∃ a, buildAttestation records serviceId secret batchId ts = Except.ok a ∧
      verifyAttestation a secret = true := by
  have hlen : ¬ records.length = 0 := fun h => hne (List.length_eq_zero.mp h)
  obtain ⟨root, hroot⟩ := buildMerkleRoot_ok
    (records.map (fun r => hashRecord r secret)) (by simpa using hne)
  unfold buildAttestation
  rw [if_neg hlen]
  simp only []
  rw [hroot]
  refine ⟨_, rfl, ?_⟩
  unfold verifyAttestation
  simp only []
  rw [if_neg (by simp)]
  rw [hroot]
  simp only []
  rw [if_neg (by simp)]
  simp

/-- Witness for C1 at a concrete one-record batch. -/
theorem C1_witness :
    ([sampleRecord] ≠ ([] : List UsageRecord)) ∧
    ∃ a, buildAttestation [sampleRecord] "svc" "k" "batch-1"
        "2026-02-15T00:00:00.000Z" = Except.ok a ∧
      verifyAttestation a "k" = true :=
  ⟨by simp,
   C1_attest_verify_roundtrip [sampleRecord] "svc" "k" "batch-1"
     "2026-02-15T00:00:00.000Z" (by simp)⟩

/-- C2: `verifyAttestation` returns `true` exactly when the record count
matches, the Merkle root recomputed from the records succeeds (so not the
empty-records error case) with the stored root, and the keyed digest
recomputed over `batchId:timestamp:merkleRoot` equals the stored signature;
it returns `false` (it is a total boolean function) whenever any check
fails. -/
theorem C2_verifyAttestation_checks (a : Attestation) (secret : String) :
    verifyAttestation a secret = true ↔
      a.records.length = a.recordCount ∧
      buildMerkleRoot (a.records.map (fun r => hashRecord r secret)) =
        Except.ok a.merkleRoot ∧
      hmacHex secret (a.batchId ++ ":" ++ a.timestamp ++ ":" ++ a.merkleRoot) =
        a.signature := by
  unfold verifyAttestation
  by_cases h1 : a.records.length = a.recordCount
  · rw [if_neg (by omega)]
    simp only []
    cases hm : buildMerkleRoot (a.records.map (fun r => hashRecord r secret)) with
    | error e => simp [h1, hm]
    | ok root =>
      simp only []
      by_cases h2 : root = a.merkleRoot
      · subst h2
        rw [if_neg (by simp)]
        simp [h1, beq_iff_eq]
      · rw [if_pos h2]
        simp only [Bool.false_eq_true, false_iff]
        intro hcon
        exact h2 (Except.ok.inj hcon.2.1)
  · rw [if_pos h1]
    simp [h1]

/-- C3: `buildMerkleRoot` equals the reference definition written from the
specification text: explicit error on the empty list, the leaf itself for a
singleton, otherwise repeated left-to-right pairing with duplication of the
last node at odd levels until one node remains. -/
theorem C3_buildMerkleRoot_refines_spec :
    ∀ leaves : List String, buildMerkleRoot leaves = merkleRootSpec leaves := by
  intro leaves
  match leaves with
  | [] => simp [buildMerkleRoot, merkleRootSpec]
  | [x] => simp [buildMerkleRoot, merkleRootSpec]
  | x :: y :: rest =>
    rw [merkleRootSpec_ok (x :: y :: rest) (by simp)]
    rfl

/-- C4: the claim that verification never throws fails for `verifySignature`:
on a 64-character non-hex signature the hex string lengths match, but the
decoded buffers have lengths 32 and 0, and the embedded `timingSafeEqual`
throws exactly as `crypto.timingSafeEqual` does on buffers of different byte
lengths. -/
theorem C4_verifySignature_throws_on_nonhex :
    verifySignature "hello" (String.mk (List.replicate 64 'z')) "secret" =
      Except.error ("Input buffers must have the same byte length") := by
  have h1 : ¬ ((signPayload "hello" "secret").length ≠
      (String.mk (List.replicate 64 'z')).length) := by
    rw [signPayload_length]; decide
  have hz : hexDecode (String.mk (List.replicate 64 'z')).data = [] := by decide
  unfold verifySignature
  rw [if_neg h1, hexDecode_signPayload, hz]
  unfold timingSafeEqual
  rw [if_pos (by rw [signBytes_length]; decide)]

/-- C5 as stated is false: by pigeonhole over the 256-bit digest space two
distinct payloads share a signature under the same secret, so verification
cannot reject every payload mutation. -/
theorem C5_counterexample :
    ¬ ∀ p p' s : String, p' ≠ p →
      verifySignature p' (signPayload p s) s = Except.ok false := by
  intro hall
  obtain ⟨p, p', hne, heq⟩ := signPayload_collision "k"
  have h1 := hall p p' "k" (Ne.symm hne)
  rw [heq, verifySignature_roundtrip] at h1
  simp at h1

/-- C5 amended: the signing round trip always verifies; verification returns
false on a signature whose length differs from the expected signature's
length; and a mutated payload or different secret is rejected whenever the
recomputed HMAC digest differs from the supplied signature (i.e. absent an
HMAC collision). -/
theorem C5_sign_verify_roundtrip (p p' sig s s' : String) :
    verifySignature p (signPayload p s) s = Except.ok true ∧
    (sig.length ≠ (signPayload p s).length →
      verifySignature p sig s = Except.ok false) ∧
    (signPayload p' s' ≠ signPayload p s →
      verifySignature p' (signPayload p s) s' = Except.ok false) :=
  ⟨verifySignature_roundtrip p s,
   fun h => verifySignature_length_mismatch p sig s (fun he => h he.symm),
   fun h => verifySignature_different p p' s s' h⟩

set_option maxRecDepth 40000 in
/-- Witness for the amended C5 at concrete payloads and secrets, with each
inner hypothesis discharged by evaluation. -/
theorem C5_sign_verify_roundtrip_witness :
    verifySignature "a" (signPayload "a" "k") "k" = Except.ok true ∧
    verifySignature "a" "xy" "k" = Except.ok false ∧
    verifySignature "b" (signPayload "a" "k") "k" = Except.ok false :=
  ⟨(C5_sign_verify_roundtrip "a" "b" "xy" "k" "k").1,
   (C5_sign_verify_roundtrip "a" "b" "xy" "k" "k").2.1
     (by rw [signPayload_length]; decide),
   (C5_sign_verify_roundtrip "a" "b" "xy" "k" "k").2.2 (by decide)⟩

/-- C10: each pairing pass maps a level of `n > 1` nodes to `⌈n / 2⌉ < n`
nodes, so the Merkle construction reaches a single node after finitely many
passes; consequently `buildMerkleRoot` terminates with a root on every
non-empty leaf list. -/
theorem C10_merkle_termination (level : List String) (h : 1 < level.length) :
    (pairUp level).length = (level.length + 1) / 2 ∧
    (pairUp level).length < level.length ∧
    (∀ leaves : List String, leaves ≠ [] →
      ∃ root, buildMerkleRoot leaves = Except.ok root) :=
  ⟨pairUp_length level, by rw [pairUp_length]; omega, buildMerkleRoot_ok⟩

/-- Witness for C10 at a concrete three-leaf level. -/
theorem C10_merkle_termination_witness :
    (1 < (["a", "b", "c"] : List String).length) ∧
    ((pairUp ["a", "b", "c"]).length = ((["a", "b", "c"] : List String).length + 1) / 2 ∧
    (pairUp ["a", "b", "c"]).length < (["a", "b", "c"] : List String).length ∧
    (∀ leaves : List String, leaves ≠ [] →
      ∃ root, buildMerkleRoot leaves = Except.ok root)) :=
  ⟨by simp, C10_merkle_termination ["a", "b", "c"] (by simp)⟩

/-- C6: on a non-empty buffer, flush attempts delivery at most `maxRetries`
times (default 3), each attempt posting the same batch; the backoff delays are
`100 * (k + 1) ^ 2` ms after each non-final 0-indexed attempt `k` and none
after the final attempt; no records of the batch remain buffered; if every
attempt fails the configured error handler is invoked exactly once with the
error and the full original batch; if any attempt succeeds the handler is not
invoked. -/
theorem C6_http_flush_retry_policy (cfg : HttpCfg) (o : Nat → FetchOutcome)
    (batch : List UsageRecord) (hne : batch ≠ []) :
    (∀ opts : HttpTransportOptions, opts.maxRetries = none →
      (mkHttpCfg opts).maxRetries = 3) ∧
    (flushT cfg o batch).2.fetchPayloads.length ≤ cfg.maxRetries ∧
    (∀ p ∈ (flushT cfg o batch).2.fetchPayloads, p = batch) ∧
    (flushT cfg o batch).2.sleeps =
      (List.range ((flushT cfg o batch).2.fetchPayloads.length - 1)).map backoff ∧
    (flushT cfg o batch).1 = [] ∧
    ((∀ k, k < cfg.maxRetries → (o k).isOk = false) → 0 < cfg.maxRetries →
      cfg.onErrorPresent = true →
      (flushT cfg o batch).2.fetchPayloads.length = cfg.maxRetries ∧
      ∃ e, (flushT cfg o batch).2.errorCalls = [(e, batch)]) ∧
    ((∃ k, k < cfg.maxRetries ∧ (o k).isOk = true) →
      (flushT cfg o batch).2.errorCalls = []) := by
  have hb : ¬ (batch.isEmpty = true) := by simp [hne]
  have hflush : flushT cfg o batch =
      ([], { fetchPayloads := List.replicate
               (attemptLoop o cfg.maxRetries cfg.maxRetries 0 none).attempts batch,
             sleeps := (attemptLoop o cfg.maxRetries cfg.maxRetries 0 none).sleeps,
             errorCalls :=
               match (attemptLoop o cfg.maxRetries cfg.maxRetries 0 none).lastError with
               | some e => if cfg.onErrorPresent then [(e, batch)] else []
               | none => [] }) := by
    unfold flushT
    rw [if_neg hb]
  refine ⟨fun opts h => by simp [mkHttpCfg, h], ?_, ?_, ?_, ?_, ?_, ?_⟩
  · rw [hflush]
    simp only [List.length_replicate]
    exact attemptLoop_attempts_le o cfg.maxRetries cfg.maxRetries 0 none (by omega)
  · rw [hflush]
    intro p hp
    exact List.eq_of_mem_replicate hp
  · rw [hflush]
    simp only [List.length_replicate]
    have := attemptLoop_sleeps o cfg.maxRetries cfg.maxRetries 0 none (by omega)
    simpa using this
  · rw [hflush]
  · intro hf hm hp
    obtain ⟨hatt, e, hle⟩ :=
      attemptLoop_allFail o cfg.maxRetries hf cfg.maxRetries 0 none hm (by omega)
    rw [hflush]
    constructor
    · simp [hatt]
    · exact ⟨e, by simp only []; rw [hle]; simp [hp]⟩
  · intro hex
    obtain ⟨k, hk, hok⟩ := hex
    have hle := attemptLoop_success o cfg.maxRetries cfg.maxRetries 0 none
      ⟨k, by omega, hk, hok⟩ (by omega)
    rw [hflush]
    simp only []
    rw [hle]

/-- Witness for C6: two failing attempts with an error handler configured. -/
theorem C6_http_flush_retry_policy_witness :
    ([sampleRecord] ≠ ([] : List UsageRecord)) ∧
    ((∀ opts : HttpTransportOptions, opts.maxRetries = none →
      (mkHttpCfg opts).maxRetries = 3) ∧
    (flushT ⟨10, 2, true⟩ (fun _ => .thrown "boom") [sampleRecord]).2.fetchPayloads.length ≤
      (⟨10, 2, true⟩ : HttpCfg).maxRetries ∧
    (∀ p ∈ (flushT ⟨10, 2, true⟩ (fun _ => .thrown "boom") [sampleRecord]).2.fetchPayloads,
      p = [sampleRecord]) ∧
    (flushT ⟨10, 2, true⟩ (fun _ => .thrown "boom") [sampleRecord]).2.sleeps =
      (List.range ((flushT ⟨10, 2, true⟩ (fun _ => .thrown "boom")
        [sampleRecord]).2.fetchPayloads.length - 1)).map backoff ∧
    (flushT ⟨10, 2, true⟩ (fun _ => .thrown "boom") [sampleRecord]).1 = [] ∧
    ((∀ k, k < (⟨10, 2, true⟩ : HttpCfg).maxRetries →
        ((fun _ => FetchOutcome.thrown "boom") k).isOk = false) →
      0 < (⟨10, 2, true⟩ : HttpCfg).maxRetries →
      (⟨10, 2, true⟩ : HttpCfg).onErrorPresent = true →
      (flushT ⟨10, 2, true⟩ (fun _ => .thrown "boom") [sampleRecord]).2.fetchPayloads.length =
        (⟨10, 2, true⟩ : HttpCfg).maxRetries ∧
      ∃ e, (flushT ⟨10, 2, true⟩ (fun _ => .thrown "boom") [sampleRecord]).2.errorCalls =
        [(e, [sampleRecord])]) ∧
    ((∃ k, k < (⟨10, 2, true⟩ : HttpCfg).maxRetries ∧
        ((fun _ => FetchOutcome.thrown "boom") k).isOk = true) →
      (flushT ⟨10, 2, true⟩ (fun _ => .thrown "boom") [sampleRecord]).2.errorCalls = [])) :=
  ⟨by simp,
   C6_http_flush_retry_policy ⟨10, 2, true⟩ (fun _ => .thrown "boom") [sampleRecord] (by simp)⟩

/-- C7: with a working delivery channel, sending exactly `batchSize` records
from an empty buffer triggers exactly one delivery call whose payload is all
of those records in send order (and empties the buffer); sending fewer than
`batchSize` triggers no delivery, and an explicit `flush()` then delivers them
all in one call. -/
theorem C7_batch_threshold_delivery (cfg : HttpCfg) (o : Nat → FetchOutcome)
    (rs : List UsageRecord) (hok : (o 0).isOk = true) (hm : 0 < cfg.maxRetries)
    (hbs : 0 < cfg.batchSize) :
    (rs.length = cfg.batchSize →
      sendManyT cfg o [] rs = ([], ⟨[rs], [], []⟩)) ∧
    (rs.length < cfg.batchSize →
      sendManyT cfg o [] rs = (rs, FlushLog.empty) ∧
      (rs ≠ [] → flushT cfg o rs = ([], ⟨[rs], [], []⟩))) := by
  constructor
  · intro hlen
    have hne : rs ≠ [] := by
      intro h
      rw [h] at hlen
      simp at hlen
      omega
    have := sendManyT_exact cfg o hok hm rs [] hne (by simpa using hlen)
    simpa using this
  · intro hlen
    refine ⟨by simpa using sendManyT_no_flush cfg o rs [] (by simpa using hlen), ?_⟩
    intro hne
    exact flushT_first_success cfg o rs hne hok hm

/-- Witness for C7 at batch size two with a successful channel. -/
theorem C7_batch_threshold_delivery_witness :
    ((((fun _ => FetchOutcome.resp 200 "OK") : Nat → FetchOutcome) 0).isOk = true) ∧
    (0 < (⟨2, 3, false⟩ : HttpCfg).maxRetries) ∧
    (0 < (⟨2, 3, false⟩ : HttpCfg).batchSize) ∧
    (([sampleRecord, sampleRecord].length = (⟨2, 3, false⟩ : HttpCfg).batchSize →
      sendManyT ⟨2, 3, false⟩ (fun _ => .resp 200 "OK") [] [sampleRecord, sampleRecord] =
        ([], ⟨[[sampleRecord, sampleRecord]], [], []⟩)) ∧
    ([sampleRecord, sampleRecord].length < (⟨2, 3, false⟩ : HttpCfg).batchSize →
      sendManyT ⟨2, 3, false⟩ (fun _ => .resp 200 "OK") [] [sampleRecord, sampleRecord] =
        ([sampleRecord, sampleRecord], FlushLog.empty) ∧
      ([sampleRecord, sampleRecord] ≠ [] →
        flushT ⟨2, 3, false⟩ (fun _ => .resp 200 "OK") [sampleRecord, sampleRecord] =
          ([], ⟨[[sampleRecord, sampleRecord]], [], []⟩)))) :=
  ⟨by decide, by decide, by decide,
   C7_batch_threshold_delivery ⟨2, 3, false⟩ (fun _ => .resp 200 "OK")
     [sampleRecord, sampleRecord] (by decide) (by decide) (by decide)⟩

/-- C8: whenever the configured identification function (the default one when
none is configured) returns no identity, `record` emits nothing and makes no
transport send call; in particular the default function returns no identity
when the `x-agent-id` header is absent. -/
theorem C8_no_identity_no_record (config : MeterConfig) (req : IncomingRequest)
    (res : OutgoingResponse) (options : Option RouteOptions)
    (freshId ts : String) (durationMs : Nat)
    (hid : (config.identifyAgent.getD defaultIdentifyAgent) req = none) :
    recordFinish config req res options freshId ts durationMs = Except.ok none ∧
    (lookupHeader req.headers ("x-agent-id") = none →
      defaultIdentifyAgent req = none) := by
  constructor
  · unfold recordFinish
    simp only []
    split
    · rfl
    · split
      · rfl
      · rw [hid]
  · intro h
    unfold defaultIdentifyAgent
    rw [h]
    rfl

/-- Witness for C8 at a request with no headers. -/
theorem C8_no_identity_no_record_witness :
    (((({ serviceId := "svc" } : MeterConfig).identifyAgent.getD
        defaultIdentifyAgent) ({} : IncomingRequest)) = none) ∧
    (recordFinish { serviceId := "svc" } {} {} none "id-1" "ts-1" 5 =
      Except.ok none ∧
    (lookupHeader ({} : IncomingRequest).headers ("x-agent-id") = none →
      defaultIdentifyAgent {} = none)) :=
  ⟨rfl, C8_no_identity_no_record { serviceId := "svc" } {} {} none "id-1" "ts-1" 5 rfl⟩

/-- C9: for an otherwise-eligible request whose response status is ≥ 400,
`record` emits nothing when `meterErrors` is unset or false, and emits exactly
one record whose `statusCode` equals the response status when `meterErrors`
is true. -/
theorem C9_meterErrors_gates_error_statuses (config : MeterConfig)
    (req : IncomingRequest) (res : OutgoingResponse)
    (options : Option RouteOptions) (freshId ts : String) (durationMs : Nat)
    (s : Nat) (agent : AgentIdentity)
    (hstatus : res.statusCode = some s) (h4 : 400 ≤ s)
    (hskip : options.bind (fun ro => ro.skip) = none)
    (hid : (config.identifyAgent.getD defaultIdentifyAgent) req = some agent)
    (hsec : config.signingSecret = none)
    (hhook : config.beforeEmit = none) :
    recordFinish { config with meterErrors := none } req res options
      freshId ts durationMs = Except.ok none ∧
    recordFinish { config with meterErrors := some false } req res options
      freshId ts durationMs = Except.ok none ∧
    ∃ r, recordFinish { config with meterErrors := some true } req res options
      freshId ts durationMs = Except.ok (some r) ∧ r.statusCode = s := by
  refine ⟨?_, ?_, ?_⟩
  · unfold recordFinish
    rw [hskip]
    simp only []
    rw [if_neg (by simp)]
    rw [hstatus]
    rw [if_pos (by simpa using h4)]
  · unfold recordFinish
    rw [hskip]
    simp only []
    rw [if_neg (by simp)]
    rw [hstatus]
    rw [if_pos (by simpa using h4)]
  · unfold recordFinish
    rw [hskip]
    simp only []
    rw [if_neg (by simp)]
    rw [hstatus]
    rw [if_neg (by simp)]
    rw [show ({ config with meterErrors := some true } : MeterConfig).identifyAgent
      = config.identifyAgent from rfl, hid]
    simp only []
    rw [if_neg (by simp [hsec, jsTruthy])]
    simp only []
    rw [show ({ config with meterErrors := some true } : MeterConfig).beforeEmit
      = config.beforeEmit from rfl, hhook]
    exact ⟨_, rfl, rfl⟩

/-- Witness for C9 at a concrete identified request with status 500. -/
theorem C9_meterErrors_gates_error_statuses_witness :
    recordFinish { serviceId := "svc", meterErrors := none }
      { headers := some [("x-agent-id", .str "bot-1")] } { statusCode := some 500 }
      none "id-1" "ts-1" 5 = Except.ok none ∧
    recordFinish { serviceId := "svc", meterErrors := some false }
      { headers := some [("x-agent-id", .str "bot-1")] } { statusCode := some 500 }
      none "id-1" "ts-1" 5 = Except.ok none ∧
    ∃ r, recordFinish { serviceId := "svc", meterErrors := some true }
      { headers := some [("x-agent-id", .str "bot-1")] } { statusCode := some 500 }
      none "id-1" "ts-1" 5 = Except.ok (some r) ∧ r.statusCode = 500 :=
  C9_meterErrors_gates_error_statuses { serviceId := "svc" }
    { headers := some [("x-agent-id", .str "bot-1")] } { statusCode := some 500 }
    none "id-1" "ts-1" 5 500 { agentId := "bot-1" }
    rfl (by omega) rfl (by decide) rfl rfl

end AgentMeter
